import Mathlib

/-!
Verification development for the bitaxe status bot's core pipeline:
the difficulty parser and best-record store (`src/status_overview.py`)
and the fetch/normalize/cache pipeline (`src/device_status.py`).

Modelling conventions:
* Python numbers are embedded exactly: `int` as `ℤ`/`ℕ`, `float` values as
  decimal-scientific tuples evaluated in `ℚ` (binary round-off of IEEE
  doubles is neglected; all magnitudes in scope are far below 2^53 where
  decimal-to-double conversion of integral values is exact).
* Python `dict`s are association lists (first hit wins, keys unique).
* File and network I/O is explicit state passing / an outcome oracle.
-/

/-! ### ASCII character helpers, mirroring `str.lower`/`str.upper`/digits -/

def asciiLower (c : Char) : Char :=
  if 65 ≤ c.toNat ∧ c.toNat ≤ 90 then Char.ofNat (c.toNat + 32) else c

def asciiUpper (c : Char) : Char :=
  if 97 ≤ c.toNat ∧ c.toNat ≤ 122 then Char.ofNat (c.toNat - 32) else c

def isDigitChar (c : Char) : Bool := 48 ≤ c.toNat ∧ c.toNat ≤ 57

def isSpaceChar (c : Char) : Bool := c = ' ' ∨ c = '\t' ∨ c = '\n' ∨ c = '\r'

/-- Python `str.strip()` (restricted to the common whitespace characters). -/
def pyStrip (cs : List Char) : List Char :=
  ((cs.dropWhile isSpaceChar).reverse.dropWhile isSpaceChar).reverse

/-! ### Python `float(...)` literal parsing, `int(...)` truncation

`float(s)` accepts `[sign] digits [. digits] [e [sign] digits]` with at
least one mantissa digit (the `inf`/`nan` words, underscores and
surrounding whitespace that Python also accepts are outside the grammar
produced by this program and are not modelled).  The value is kept as an
exact decimal-scientific tuple; `int(...)` truncates toward zero. -/

structure PyFloat where
  neg : Bool
  mant : ℕ
  frac : ℕ
  exp : ℤ
  deriving DecidableEq

def digitsToNat (cs : List Char) : ℕ :=
  cs.foldl (fun a c => 10 * a + (c.toNat - 48)) 0

def spanDigits : List Char → List Char × List Char
  | [] => ([], [])
  | c :: cs =>
    if isDigitChar c then
      let p := spanDigits cs
      (c :: p.1, p.2)
    else ([], c :: cs)

def parseSign : List Char → Bool × List Char
  | [] => (false, [])
  | c :: cs =>
    if c = '-' then (true, cs)
    else if c = '+' then (false, cs)
    else (false, c :: cs)

def parseFrac : List Char → List Char × List Char
  | [] => ([], [])
  | c :: cs => if c = '.' then spanDigits cs else ([], c :: cs)

def parseExpTail (cs : List Char) : Option ℤ :=
  let p := parseSign cs
  let q := spanDigits p.2
  if q.1 = [] ∨ q.2 ≠ [] then none
  else some ((if p.1 then -1 else 1) * (digitsToNat q.1 : ℤ))

def parseExp : List Char → Option ℤ
  | [] => some 0
  | c :: rest => if c = 'e' ∨ c = 'E' then parseExpTail rest else none

def parseFloat (cs : List Char) : Option PyFloat :=
  let p := parseSign cs
  let q := spanDigits p.2
  let r := parseFrac q.2
  if q.1 = [] ∧ r.1 = [] then none
  else
    match parseExp r.2 with
    | some e => some ⟨p.1, digitsToNat (q.1 ++ r.1), r.1.length, e⟩
    | none => none

/-- The exact rational value of a parsed float literal. -/
def PyFloat.val (f : PyFloat) : ℚ :=
  (if f.neg then -1 else 1) * (f.mant : ℚ) * (10 : ℚ) ^ f.exp / (10 : ℚ) ^ (f.frac : ℕ)

/-- Python `int(float_value)`: truncation toward zero, computed exactly on
the decimal tuple. -/
def pyIntOfFloat (f : PyFloat) : ℤ :=
  let e : ℤ := f.exp - (f.frac : ℤ)
  let a : ℕ := if 0 ≤ e then f.mant * 10 ^ e.toNat else f.mant / 10 ^ (-e).toNat
  if f.neg then -(a : ℤ) else (a : ℤ)

/-! ### The difficulty-string parse used by `check_and_update_best_diff`

Source: `val_str = best_diff_str.lower().replace("g", "e9").replace("m",
"e6").replace("k", "e3"); numeric_val = int(float(val_str))`.
The three sequential single-character replacements never reintroduce a
`g`/`m`/`k`, so they equal one simultaneous character expansion. -/

def expandSuffixChar (c : Char) : List Char :=
  if c = 'g' then ['e', '9']
  else if c = 'm' then ['e', '6']
  else if c = 'k' then ['e', '3']
  else [c]

def diffTransform (s : String) : List Char :=
  (s.data.map asciiLower).flatMap expandSuffixChar

def parse_best_diff (s : String) : Option ℤ :=
  (parseFloat (diffTransform s)).map pyIntOfFloat

/-! ### `format_best_diff` (thousands separators, suffix tag) -/

def digitChar (n : ℕ) : Char := Char.ofNat (48 + n)

def natDigitsRevAux : ℕ → ℕ → List ℕ
  | 0, _ => []
  | _ + 1, 0 => []
  | fuel + 1, n + 1 => ((n + 1) % 10) :: natDigitsRevAux fuel ((n + 1) / 10)

/-- Base-10 digits of `n`, least significant first (`0` gives `[]`). -/
def natDigitsRev (n : ℕ) : List ℕ := natDigitsRevAux n n

def commaGroupAux : List ℕ → ℕ → List Char
  | [], _ => []
  | d :: ds, i =>
    digitChar d ::
      (if (i + 1) % 3 = 0 ∧ ds ≠ [] then ',' :: commaGroupAux ds (i + 1)
       else commaGroupAux ds (i + 1))

/-- Python `f"{n:,}"` for a natural number. -/
def commaGroup (n : ℕ) : String :=
  if n = 0 then "0" else String.mk (commaGroupAux (natDigitsRev n) 0).reverse

/-- Python `f"{z:,}"` for an int. -/
def pyFormatComma (z : ℤ) : String :=
  (if z < 0 then "-" else "") ++ commaGroup z.natAbs

/-- One suffix branch of `format_best_diff`: strip every occurrence of the
suffix letter, `float(...)` the rest, scale by `10^k`, comma-format. -/
def fmtWithSuffix (orig : String) (upper : List Char) (c : Char) (k : ℤ) : String :=
  match parseFloat (pyStrip (upper.filter (fun d => d ≠ c))) with
  | some f => pyFormatComma (pyIntOfFloat { f with exp := f.exp + k }) ++ " (" ++ String.mk [c] ++ ")"
  | none => orig

/-- `format_best_diff` from `src/status_overview.py`: uppercase + strip,
branch on a contained `G`/`M`/`K` (checked in that order, anywhere in the
string), comma-format the scaled integer; any failure returns the input. -/
def format_best_diff (s : String) : String :=
  let u := pyStrip (s.data.map asciiUpper)
  if 'G' ∈ u then fmtWithSuffix s u 'G' 9
  else if 'M' ∈ u then fmtWithSuffix s u 'M' 6
  else if 'K' ∈ u then fmtWithSuffix s u 'K' 3
  else
    match parseFloat u with
    | some f => pyFormatComma (pyIntOfFloat f)
    | none => s

/-! ### The best-record store (`load_best_diff` / `save_best_diff` /
`check_and_update_best_diff`)

State: the module-global `best_diff_history` (`none` models the falsy
initial `[]`/`{}`) and the JSON file (`none` models "absent or
unreadable").  `ioOk` tells whether the `open(..., "w")` write succeeds;
`t` is the wall-clock instant used for the record's timestamp. -/

structure BestRecord where
  value : ℤ
  short : Char
  hostname : String
  timestamp : ℕ
  deriving DecidableEq

structure BDState where
  mem : Option BestRecord
  file : Option BestRecord
  deriving DecidableEq

/-- `load_best_diff`: populate the in-memory history from the file only
when the history is still falsy; return the history. -/
def load_best_diff (st : BDState) : Option BestRecord × BDState :=
  match st.mem with
  | some r => (some r, st)
  | none =>
    match st.file with
    | some r => (some r, { st with mem := some r })
    | none => (none, st)

/-- `save_best_diff`: extract the suffix letter (default `'G'`) from the
last character of the uppercased string. -/
def pySuffixOf (s : String) : Char :=
  match (s.data.map asciiUpper).getLast? with
  | some c => if c = 'G' ∨ c = 'M' ∨ c = 'K' then c else 'G'
  | none => 'G'

/-- `save_best_diff`: build the record and write it to the file; on an
`IOError` (`ioOk = false`) only log.  The in-memory history is not
touched (the source function has no `global best_diff_history`
assignment). -/
def save_best_diff (v : ℤ) (bestDiff hostname : String) (t : ℕ) (ioOk : Bool)
    (st : BDState) : BDState :=
  let best : BestRecord := ⟨v, pySuffixOf bestDiff, hostname, t⟩
  if ioOk then { st with file := some best } else st

/-- `check_and_update_best_diff`, with the `status['bestDiff']` /
`status['hostname']` fields passed directly.  A `ValueError` from
`int(float(...))` is modelled by `parse_best_diff` returning `none`. -/
def check_and_update_best_diff (diff hostname : String) (ioOk : Bool) (t : ℕ)
    (st : BDState) : (Bool × Option String) × BDState :=
  let l := load_best_diff st
  if diff = "" ∨ diff = "-" then ((false, none), l.2)
  else
    match parse_best_diff diff with
    | none => ((false, none), l.2)
    | some v =>
      if (match l.1 with
          | none => true
          | some r => decide (v > r.value)) then
        ((true, some (format_best_diff diff)), save_best_diff v diff hostname t ioOk l.2)
      else ((false, none), l.2)

/-! ### JSON-like values (Python dicts/lists/scalars) -/

inductive JValue where
  | null
  | bool (b : Bool)
  | int (n : ℤ)
  | float (q : ℚ)
  | str (s : String)
  | arr (xs : List JValue)
  | obj (kvs : List (String × JValue))

abbrev Obj := List (String × JValue)

/-- Python dict lookup (`d.get(k)` / `k in d`): first matching key. -/
def alookup {α : Type} : List (String × α) → String → Option α
  | [], _ => none
  | (k, v) :: rest, key => if key = k then some v else alookup rest key

/-- Python dict assignment `d[k] = v`: replace in place or append. -/
def ainsert {α : Type} : List (String × α) → String → α → List (String × α)
  | [], key, v => [(key, v)]
  | (k, w) :: rest, key, v =>
    if key = k then (k, v) :: rest else (k, w) :: ainsert rest key v

/-- Python truthiness of a JSON value. -/
def truthy : JValue → Bool
  | .null => false
  | .bool b => b
  | .int n => decide (n ≠ 0)
  | .float q => decide (q ≠ 0)
  | .str s => decide (s ≠ "")
  | .arr xs => !xs.isEmpty
  | .obj kvs => !kvs.isEmpty

/-- Python `x or default` applied to an optional lookup result. -/
def pyOr (x : Option JValue) (d : JValue) : JValue :=
  match x with
  | some v => if truthy v then v else d
  | none => d

/-! ### `get_value` (`src/device_status.py`) -/

/-- The `for k in keys` descent loop of `get_value`'s nested-path branch:
`current` starts at the whole dict and each key must step through a dict. -/
def pathDescend : JValue → List String → Option JValue
  | v, [] => some v
  | JValue.obj kvs, k :: ks =>
    match alookup kvs k with
    | some v => pathDescend v ks
    | none => none
  | _, _ :: _ => none

/-- The `for key in keys` alternatives loop of `get_value`. -/
def firstAlt (data : Obj) : List String → Option JValue
  | [] => none
  | k :: ks =>
    match alookup data k with
    | some v => some v
    | none => firstAlt data ks

def isObjValue : Option JValue → Bool
  | some (JValue.obj _) => true
  | _ => false

/-- `get_value(data, keys)`: empty key list gives `None`; a multi-element
list whose first key maps to a dict is a nested path; otherwise the keys
are alternatives. -/
def get_value (data : Obj) (keys : List String) : Option JValue :=
  match keys with
  | [] => none
  | k0 :: rest =>
    if rest.length > 0 ∧ isObjValue (alookup data k0) then
      pathDescend (JValue.obj data) (k0 :: rest)
    else firstAlt data (k0 :: rest)

/-! Spec-side restatement of the two-mode candidate resolution rule
(§4.2 of the spec), written independently of the source's loop shape:
the path mode folds the key sequence through nested containers, the
alternatives mode finds the first present key. -/

def specStep (cur : Option JValue) (k : String) : Option JValue :=
  match cur with
  | some (JValue.obj kvs) => alookup kvs k
  | _ => none

def resolvePathSpec (data : Obj) (keys : List String) : Option JValue :=
  keys.foldl specStep (some (JValue.obj data))

def resolveAltSpec (data : Obj) (keys : List String) : Option JValue :=
  (keys.find? (fun k => (alookup data k).isSome)).bind (alookup data)

def resolveSpec (data : Obj) (keys : List String) : Option JValue :=
  if keys.length > 1 ∧ isObjValue (alookup data keys.head!) then
    resolvePathSpec data keys
  else resolveAltSpec data keys

/-! ### `unify_status` (`src/device_status.py`)

Each row of `fieldTable` transcribes one line of the literal dict
returned by `unify_status`: canonical name, candidate keys, default.
The `hostname` row's default is the function's `hostname` argument. -/

def fieldTable (hostname : String) : List (String × List String × JValue) :=
  [ ("hostname", ["hostname"], JValue.str hostname),
    ("deviceID", ["deviceID"], JValue.str "N/A"),
    ("ip", ["ip", "hostip"], JValue.str "N/A"),
    ("mac", ["macAddr", "mac"], JValue.str "N/A"),
    ("power", ["power"], JValue.float 0),
    ("powerLimit", ["powerLimit"], JValue.float 0),
    ("maxPower", ["maxPower"], JValue.float 0),
    ("minPower", ["minPower"], JValue.float 0),
    ("voltage", ["voltage"], JValue.int 0),
    ("current", ["current"], JValue.int 0),
    ("maxVoltage", ["maxVoltage"], JValue.int 0),
    ("minVoltage", ["minVoltage"], JValue.int 0),
    ("nominalVoltage", ["nominalVoltage"], JValue.int 0),
    ("hashRate", ["hashRate"], JValue.float 0),
    ("hashRate_1m", ["hashRate_1m"], JValue.float 0),
    ("hashRate_10m", ["hashRate_10m"], JValue.float 0),
    ("hashRate_1h", ["hashRate_1h"], JValue.float 0),
    ("hashRate_1d", ["hashRate_1d"], JValue.float 0),
    ("expectedHashrate", ["expectedHashrate"], JValue.float 0),
    ("temp", ["temp"], JValue.int 0),
    ("vrTemp", ["vrTemp"], JValue.int 0),
    ("temptarget", ["temptarget", "pidTargetTemp"], JValue.int 0),
    ("overheat_temp", ["overheat_temp"], JValue.int 0),
    ("bestDiff", ["bestDiff"], JValue.str "-"),
    ("bestSessionDiff", ["bestSessionDiff"], JValue.str "-"),
    ("bestDiffTime", ["bestDiffTime"], JValue.str "-"),
    ("poolDifficulty", ["poolDifficulty"], JValue.int 0),
    ("stratumDifficulty", ["stratumDifficulty"], JValue.int 0),
    ("sharesAccepted", ["sharesAccepted"], JValue.int 0),
    ("sharesRejected", ["sharesRejected"], JValue.int 0),
    ("sharesRejectedReasons", ["sharesRejectedReasons"], JValue.arr []),
    ("coreVoltage", ["coreVoltage"], JValue.int 0),
    ("defaultCoreVoltage", ["defaultCoreVoltage"], JValue.int 0),
    ("coreVoltageActual", ["coreVoltageActual", "coreVoltageActualMV"], JValue.int 0),
    ("coreVoltageSet", ["coreVoltageSet"], JValue.int 0),
    ("frequency", ["frequency"], JValue.int 0),
    ("ssid", ["ssid"], JValue.str "-"),
    ("wifiStatus", ["wifiStatus"], JValue.str "-"),
    ("wifiRSSI", ["wifiRSSI"], JValue.int 0),
    ("ASICModel", ["ASICModel"], JValue.str "Unknown"),
    ("deviceModel", ["deviceModel", "boardVersion"], JValue.str "Unknown"),
    ("asicCount", ["asicCount"], JValue.int 0),
    ("smallCoreCount", ["smallCoreCount"], JValue.int 0),
    ("fanspeed", ["fanspeed"], JValue.int 0),
    ("fanrpm", ["fanrpm"], JValue.int 0),
    ("manualFanSpeed", ["manualFanSpeed"], JValue.int 0),
    ("uptimeSeconds", ["uptimeSeconds"], JValue.int 0),
    ("freeHeap", ["freeHeap"], JValue.int 0),
    ("freeHeapInt", ["freeHeapInt"], JValue.int 0),
    ("version", ["version"], JValue.str "N/A"),
    ("axeOSVersion", ["axeOSVersion"], JValue.str "N/A"),
    ("idfVersion", ["idfVersion"], JValue.str "N/A"),
    ("boardVersion", ["boardVersion", "deviceModel"], JValue.str "Unknown"),
    ("stratumURL", ["stratumURL"], JValue.str "-"),
    ("stratumPort", ["stratumPort"], JValue.str "-"),
    ("stratumUser", ["stratumUser"], JValue.str "-"),
    ("fallbackStratumURL", ["fallbackStratumURL"], JValue.str "-"),
    ("fallbackStratumPort", ["fallbackStratumPort"], JValue.str "-"),
    ("fallbackStratumUser", ["fallbackStratumUser"], JValue.str "-"),
    ("isUsingFallbackStratum", ["isUsingFallbackStratum", "stratum.usingFallback"], JValue.bool false),
    ("duplicateHWNonces", ["duplicateHWNonces"], JValue.int 0),
    ("foundBlocks", ["foundBlocks"], JValue.int 0),
    ("totalFoundBlocks", ["totalFoundBlocks"], JValue.int 0),
    ("defaultFrequency", ["defaultFrequency"], JValue.int 0),
    ("vrFrequency", ["vrFrequency"], JValue.int 0),
    ("defaultVrFrequency", ["defaultVrFrequency"], JValue.int 0),
    ("jobInterval", ["jobInterval"], JValue.int 0),
    ("lastResetReason", ["lastResetReason"], JValue.str "N/A"),
    ("runningPartition", ["runningPartition"], JValue.str "N/A"),
    ("pidP", ["pidP"], JValue.int 0),
    ("pidI", ["pidI"], JValue.int 0),
    ("pidD", ["pidD"], JValue.int 0),
    ("stratum_poolMode", ["stratum", "poolMode"], JValue.str "-"),
    ("stratum_activePoolMode", ["stratum", "activePoolMode"], JValue.str "-"),
    ("stratum_poolBalance", ["stratum", "poolBalance"], JValue.int 0),
    ("stratum_totalBestDiff", ["stratum", "totalBestDiff"], JValue.int 0),
    ("stratum_poolDifficulty", ["stratum", "poolDifficulty"], JValue.int 0),
    ("overheat_mode", ["overheat_mode"], JValue.bool false),
    ("autofanspeed", ["autofanspeed"], JValue.bool false),
    ("invertfanpolarity", ["invertfanpolarity"], JValue.bool false),
    ("flipscreen", ["flipscreen"], JValue.bool false),
    ("invertscreen", ["invertscreen"], JValue.bool false) ]

def unifyRow (data : Obj) (r : String × List String × JValue) : String × JValue :=
  (r.1, pyOr (get_value data r.2.1) r.2.2)

/-- `unify_status(data, hostname)`: pass an error payload through
unchanged, otherwise build the canonical dict, each entry being
`get_value(data, keys) or default`. -/
def unify_status (data : Obj) (hostname : String) : Obj :=
  if (alookup data "error").isSome then data
  else (fieldTable hostname).map (unifyRow data)

/-- The canonical field names, in the order the source dict lists them. -/
def canonicalFieldNames : List String := (fieldTable "").map Prod.fst

/-! ### Fetch and cache (`src/device_status.py`)

`fetch_status` is wrapped in `try/except`: each failure class is caught
and returned as an error dict, never raised.  The network outcome is an
explicit oracle value. -/

inductive FetchOutcome where
  | success (body : Obj)
  | timeout
  | clientError (msg : String)
  | unexpected (msg : String)

def fetch_status : FetchOutcome → Obj
  | .success body => body
  | .timeout => [("error", JValue.str "timeout")]
  | .clientError m => [("error", JValue.str m)]
  | .unexpected m => [("error", JValue.str m)]

structure CacheEntry where
  data : Obj
  timestamp : Int

abbrev Cache := List (String × CacheEntry)

/-- `hostname in STATUS_CACHE and now - entry['timestamp'] < CACHE_TTL`. -/
def isFreshEntry (now : Int) : Option CacheEntry → Bool
  | some e => decide (now - e.timestamp < 5)
  | none => false

/-- The scan loop of `get_all_device_statuses`: devices with a truthy
`ip` whose cache entry is absent or stale, paired with their ip. -/
def staleHosts (devices : List (String × Option String)) (cache : Cache)
    (now : Int) : List (String × String) :=
  devices.filterMap fun d =>
    match d.2 with
    | some ip =>
      if ip ≠ "" ∧ ¬ isFreshEntry now (alookup cache d.1) then some (d.1, ip) else none
    | none => none

/-- The refresh loop: one fetch per stale device (via the outcome
oracle, keyed by ip), unify, overwrite the cache entry at time `tF`. -/
def refreshCache (oracle : String → FetchOutcome) (tF : Int)
    (stale : List (String × String)) (cache : Cache) : Cache :=
  stale.foldl
    (fun c hi => ainsert c hi.1 ⟨unify_status (fetch_status (oracle hi.2)) hi.1, tF⟩)
    cache

/-- `get_all_device_statuses`: scan, refresh, then return the cached data
for every configured device present in the cache.  `now` is the clock at
the scan, `tF` the (later) clock at the cache write. -/
def get_all_device_statuses (devices : List (String × Option String))
    (oracle : String → FetchOutcome) (now tF : Int) (cache : Cache) :
    Cache × List (String × Obj) :=
  let cache2 := refreshCache oracle tF (staleHosts devices cache now) cache
  (cache2, devices.filterMap fun d => (alookup cache2 d.1).map fun e => (d.1, e.data))

/-! ### Well-formed difficulty strings (for the suffix-parsing claim)

A well-formed difficulty string is a nonempty decimal number (integer
digits, optionally a dot and fraction digits) followed by at most one
case-insensitive `K`/`M`/`G` suffix. -/

def dotChars : Option (List Char) → List Char
  | some f => '.' :: f
  | none => []

def fracOf : Option (List Char) → List Char
  | some f => f
  | none => []

def sufChars : Option Char → List Char
  | some c => [c]
  | none => []

def mkDiffStr (ip : List Char) (dotfp : Option (List Char)) (suf : Option Char) : String :=
  String.mk (ip ++ dotChars dotfp ++ sufChars suf)

/-- The exact rational value of the decimal number part. -/
def decValue (ip : List Char) (dotfp : Option (List Char)) : ℚ :=
  (digitsToNat (ip ++ fracOf dotfp) : ℚ) / (10 : ℚ) ^ (fracOf dotfp).length

/-- The decimal exponent a suffix letter stands for. -/
def expOfSuffix : Option Char → ℕ
  | none => 0
  | some c => if c = 'K' ∨ c = 'k' then 3 else if c = 'M' ∨ c = 'm' then 6 else 9

/-! ## Claim theorems -/

/-- C1: counterexample trace.  Starting from a persisted record of value
100 (loaded by the first call), `check_and_update_best_diff("200")`
persists 200, but the in-memory history still holds the stale value 100
(`save_best_diff` never updates it), so a following
`check_and_update_best_diff("150")` compares against 100 and persists
150 — strictly below the 200 most recently persisted.  The claimed
monotonicity of the persisted `value` field fails. -/
theorem bestRecord_persisted_value_can_decrease :
    ((check_and_update_best_diff "200" "A" true 1
        ⟨none, some ⟨100, 'G', "old", 0⟩⟩).2.file.map BestRecord.value = some 200) ∧
    ((check_and_update_best_diff "150" "A" true 2
        (check_and_update_best_diff "200" "A" true 1
          ⟨none, some ⟨100, 'G', "old", 0⟩⟩).2).2.file.map BestRecord.value = some 150) ∧
    (150 : ℤ) < 200 := by
  decide

/-- C2: counterexample trace.  With a loaded record of value 100, two
consecutive `check_and_update_best_diff("200", "A")` calls both return
`(true, "200")`: the first call's save only writes the file, the second
call's `load_best_diff` returns the stale in-memory record of 100, so
the identical input is reported as a new record a second time. -/
theorem checkAndUpdate_reports_same_input_twice :
    ((check_and_update_best_diff "200" "A" true 1
        ⟨none, some ⟨100, 'G', "old", 0⟩⟩).1 = (true, some "200")) ∧
    ((check_and_update_best_diff "200" "A" true 2
        (check_and_update_best_diff "200" "A" true 1
          ⟨none, some ⟨100, 'G', "old", 0⟩⟩).2).1 = (true, some "200")) := by
  decide

/-- C10: with no record yet and the file write failing
(`ioOk = false`), `check_and_update_best_diff("1.5M")` still reports a
new record, yet leaves the whole state unchanged: the in-memory history
is still empty afterwards — it does not hold the new value 1500000,
because neither `check_and_update_best_diff` nor `save_best_diff` ever
assigns the in-memory history. -/
theorem failed_persist_leaves_memory_without_new_value :
    (check_and_update_best_diff "1.5M" "A" false 1 ⟨none, none⟩).1
      = (true, some "1,500,000 (M)") ∧
    (check_and_update_best_diff "1.5M" "A" false 1 ⟨none, none⟩).2 = ⟨none, none⟩ := by
  decide

/-- C3: counterexample.  With no record yet, a candidate of parsed
magnitude 0 (`"0"`) does create a first record and returns
`(true, "0")`, because the code's `if not current_best or ...` accepts
any parsed value when no record exists — the claim's
`(false, None)`-and-no-mutation behaviour for "not strictly greater
than 0" fails. -/
theorem zero_magnitude_creates_first_record :
    (check_and_update_best_diff "0" "x" true 0 ⟨none, none⟩).1 = (true, some "0") ∧
    (check_and_update_best_diff "0" "x" true 0 ⟨none, none⟩).2.file.map BestRecord.value
      = some 0 := by
  decide

/-- C3 (amended): `check_and_update_best_diff` is a pure no-op —
`(false, None)`, file untouched, memory only affected by the initial
load — whenever the parse fails (which covers `""`, `"-"` and
non-numeric strings), and whenever a record exists whose magnitude is at
least the parsed candidate.  (When no record exists, any successfully
parsed magnitude — including 0 — creates the first record, see
`zero_magnitude_creates_first_record`.) -/
theorem checkAndUpdate_noop_cases (diff host : String) (ioOk : Bool) (t : ℕ)
    (st : BDState) :
    ((load_best_diff st).2.file = st.file) ∧
    (parse_best_diff diff = none →
      check_and_update_best_diff diff host ioOk t st
        = ((false, none), (load_best_diff st).2)) ∧
    (∀ v r, parse_best_diff diff = some v → (load_best_diff st).1 = some r →
      v ≤ r.value →
      check_and_update_best_diff diff host ioOk t st
        = ((false, none), (load_best_diff st).2)) := by
  refine ⟨?_, ?_, ?_⟩
  · rcases st with ⟨mem, file⟩
    cases mem <;> cases file <;> rfl
  · intro hp
    unfold check_and_update_best_diff
    by_cases h : diff = "" ∨ diff = "-"
    · simp only [h, if_true]
    · simp only [h, if_false, hp]
  · intro v r hp hl hle
    have hne : ¬ (diff = "" ∨ diff = "-") := by
      rintro (rfl | rfl)
      · rw [(by decide : parse_best_diff "" = none)] at hp
        exact Option.noConfusion hp
      · rw [(by decide : parse_best_diff "-" = none)] at hp
        exact Option.noConfusion hp
    have hdec : decide (v > r.value) = false := decide_eq_false (not_lt.mpr hle)
    unfold check_and_update_best_diff
    simp only [hne, if_false, hp, hl, hdec, Bool.false_eq_true]

/-- C3 witness: concrete no-op instances — a `"-"` input with empty
state, and a candidate of 50 against a stored record of 100. -/
theorem checkAndUpdate_noop_cases_witness :
    check_and_update_best_diff "-" "h" true 0 ⟨none, none⟩
      = ((false, none), ⟨none, none⟩) ∧
    check_and_update_best_diff "50" "h" true 0 ⟨some ⟨100, 'G', "o", 0⟩, none⟩
      = ((false, none), ⟨some ⟨100, 'G', "o", 0⟩, none⟩) := by
  constructor
  · exact (checkAndUpdate_noop_cases "-" "h" true 0 ⟨none, none⟩).2.1 (by decide)
  · exact (checkAndUpdate_noop_cases "50" "h" true 0
      ⟨some ⟨100, 'G', "o", 0⟩, none⟩).2.2 50 ⟨100, 'G', "o", 0⟩ (by decide) rfl (by decide)

/-! Helper lemmas about the character-level parser, used for the
suffix-parsing claim. -/

theorem isDigitChar_spec {c : Char} (h : isDigitChar c = true) :
    48 ≤ c.toNat ∧ c.toNat ≤ 57 := by
  simpa [isDigitChar] using h

theorem digit_ne {d e : Char} (hd : isDigitChar d = true)
    (he : isDigitChar e = false) : d ≠ e := by
  rintro rfl
  rw [hd] at he
  exact Bool.noConfusion he

theorem asciiLower_digit {c : Char} (h : isDigitChar c = true) :
    asciiLower c = c := by
  have hc := isDigitChar_spec h
  unfold asciiLower
  rw [if_neg (by omega)]

theorem expandSuffixChar_digit {c : Char} (h : isDigitChar c = true) :
    expandSuffixChar c = [c] := by
  have hg : c ≠ 'g' := by rintro rfl; exact absurd h (by decide)
  have hm : c ≠ 'm' := by rintro rfl; exact absurd h (by decide)
  have hk : c ≠ 'k' := by rintro rfl; exact absurd h (by decide)
  simp [expandSuffixChar, hg, hm, hk]

theorem map_asciiLower_digits {l : List Char}
    (h : ∀ c ∈ l, isDigitChar c = true) : l.map asciiLower = l := by
  induction l with
  | nil => rfl
  | cons c cs ih =>
    rw [List.map_cons, asciiLower_digit (h c (List.mem_cons_self c cs)),
      ih (fun d hd => h d (List.mem_cons_of_mem c hd))]

theorem flatMap_expand_digits {l : List Char}
    (h : ∀ c ∈ l, isDigitChar c = true) : l.flatMap expandSuffixChar = l := by
  induction l with
  | nil => rfl
  | cons c cs ih =>
    rw [List.flatMap_cons, expandSuffixChar_digit (h c (List.mem_cons_self c cs)),
      ih (fun d hd => h d (List.mem_cons_of_mem c hd))]
    rfl

theorem spanDigits_append {ds rest : List Char}
    (h : ∀ c ∈ ds, isDigitChar c = true)
    (h2 : ∀ c cs, rest = c :: cs → isDigitChar c = false) :
    spanDigits (ds ++ rest) = (ds, rest) := by
  induction ds with
  | nil =>
    cases rest with
    | nil => rfl
    | cons c cs => simp [spanDigits, h2 c cs rfl]
  | cons d ds ih =>
    have ih2 := ih (fun c hc => h c (List.mem_cons_of_mem d hc))
    simp only [List.cons_append, spanDigits, h d (List.mem_cons_self d ds), if_true,
      List.append_eq, ih2]

theorem parseSign_no_sign {l : List Char}
    (h : ∀ c cs, l = c :: cs → (c ≠ '-' ∧ c ≠ '+')) :
    parseSign l = (false, l) := by
  cases l with
  | nil => rfl
  | cons c cs =>
    obtain ⟨h1, h2⟩ := h c cs rfl
    simp [parseSign, h1, h2]

theorem parseFrac_no_dot {l : List Char}
    (h : ∀ c cs, l = c :: cs → c ≠ '.') :
    parseFrac l = ([], l) := by
  cases l with
  | nil => rfl
  | cons c cs => simp [parseFrac, h c cs rfl]

theorem parseFloat_canonical_dot (ip fp tail : List Char) (k : ℤ)
    (hip : ∀ c ∈ ip, isDigitChar c = true) (hfp : ∀ c ∈ fp, isDigitChar c = true)
    (hne : ¬(ip = [] ∧ fp = []))
    (htail : ∀ c cs, tail = c :: cs → (isDigitChar c = false ∧ c ≠ '.'))
    (hexp : parseExp tail = some k) :
    parseFloat (ip ++ ('.' :: (fp ++ tail)))
      = some ⟨false, digitsToNat (ip ++ fp), fp.length, k⟩ := by
  have h1 : parseSign (ip ++ ('.' :: (fp ++ tail)))
      = (false, ip ++ ('.' :: (fp ++ tail))) := by
    apply parseSign_no_sign
    intro c cs hc
    cases ip with
    | nil =>
      rw [List.nil_append] at hc
      injection hc with hc1 _
      subst hc1
      exact ⟨by decide, by decide⟩
    | cons d ds =>
      rw [List.cons_append] at hc
      injection hc with hc1 _
      subst hc1
      exact ⟨digit_ne (hip d (List.mem_cons_self d ds)) (by decide),
        digit_ne (hip d (List.mem_cons_self d ds)) (by decide)⟩
  have h2b : ∀ c cs, ('.' :: (fp ++ tail)) = c :: cs → isDigitChar c = false := by
    intro c cs hc
    injection hc with hc1 _
    subst hc1
    decide
  have h2 : spanDigits (ip ++ ('.' :: (fp ++ tail))) = (ip, '.' :: (fp ++ tail)) :=
    spanDigits_append hip h2b
  have h3 : parseFrac ('.' :: (fp ++ tail)) = (fp, tail) := by
    simp only [parseFrac, if_pos rfl]
    exact spanDigits_append hfp (fun c cs hc => (htail c cs hc).1)
  unfold parseFloat
  simp only [h1, h2, h3, hexp]
  rw [if_neg hne]

theorem parseFloat_canonical_nodot (ip tail : List Char) (k : ℤ)
    (hip : ∀ c ∈ ip, isDigitChar c = true) (hne : ip ≠ [])
    (htail : ∀ c cs, tail = c :: cs → (isDigitChar c = false ∧ c ≠ '.'))
    (hexp : parseExp tail = some k) :
    parseFloat (ip ++ tail) = some ⟨false, digitsToNat ip, 0, k⟩ := by
  have h1 : parseSign (ip ++ tail) = (false, ip ++ tail) := by
    apply parseSign_no_sign
    intro c cs hc
    cases ip with
    | nil => exact absurd rfl hne
    | cons d ds =>
      rw [List.cons_append] at hc
      injection hc with hc1 _
      subst hc1
      exact ⟨digit_ne (hip d (List.mem_cons_self d ds)) (by decide),
        digit_ne (hip d (List.mem_cons_self d ds)) (by decide)⟩
  have h2 : spanDigits (ip ++ tail) = (ip, tail) :=
    spanDigits_append hip (fun c cs hc => (htail c cs hc).1)
  have h3 : parseFrac tail = ([], tail) :=
    parseFrac_no_dot (fun c cs hc => (htail c cs hc).2)
  unfold parseFloat
  simp only [h1, h2, h3, hexp]
  rw [if_neg (by simp [hne]), List.append_nil]
  rfl

theorem lowerExpand_dotChars (dotfp : Option (List Char))
    (hfp : ∀ c ∈ fracOf dotfp, isDigitChar c = true) :
    ((dotChars dotfp).map asciiLower).flatMap expandSuffixChar = dotChars dotfp := by
  cases dotfp with
  | none => rfl
  | some fp =>
    have hfp2 : ∀ c ∈ fp, isDigitChar c = true := hfp
    show (('.' :: fp).map asciiLower).flatMap expandSuffixChar = '.' :: fp
    rw [List.map_cons, (by decide : asciiLower '.' = '.'),
      map_asciiLower_digits hfp2, List.flatMap_cons,
      (by decide : expandSuffixChar '.' = ['.']), flatMap_expand_digits hfp2]
    rfl

theorem diffTransform_mkDiffStr (ip : List Char) (dotfp : Option (List Char))
    (suf : Option Char) (tailLow : List Char)
    (hip : ∀ c ∈ ip, isDigitChar c = true)
    (hfp : ∀ c ∈ fracOf dotfp, isDigitChar c = true)
    (hsuf : ((sufChars suf).map asciiLower).flatMap expandSuffixChar = tailLow) :
    diffTransform (mkDiffStr ip dotfp suf) = ip ++ (dotChars dotfp ++ tailLow) := by
  unfold diffTransform mkDiffStr
  rw [show (String.mk (ip ++ dotChars dotfp ++ sufChars suf)).data
      = ip ++ dotChars dotfp ++ sufChars suf from rfl]
  rw [List.map_append, List.map_append, List.flatMap_append, List.flatMap_append,
    map_asciiLower_digits hip, flatMap_expand_digits hip,
    lowerExpand_dotChars dotfp hfp, hsuf, List.append_assoc]

theorem pyIntOfFloat_floor (n f k : ℕ) :
    pyIntOfFloat ⟨false, n, f, (k : ℤ)⟩ = ⌊(n : ℚ) / (10 : ℚ) ^ f * (10 : ℚ) ^ k⌋ := by
  by_cases hfk : f ≤ k
  · have he : (0 : ℤ) ≤ (k : ℤ) - (f : ℤ) := by omega
    have ht : ((k : ℤ) - (f : ℤ)).toNat = k - f := by omega
    have hval : (n : ℚ) / (10 : ℚ) ^ f * (10 : ℚ) ^ k
        = ((n * 10 ^ (k - f) : ℕ) : ℚ) := by
      have hp : (10 : ℚ) ^ k = (10 : ℚ) ^ f * (10 : ℚ) ^ (k - f) := by
        rw [← pow_add]
        congr 1
        omega
      have h10 : (10 : ℚ) ^ f ≠ 0 := by positivity
      push_cast
      rw [hp]
      field_simp
      ring
    simp only [pyIntOfFloat, if_pos he, ht, Bool.false_eq_true, if_false]
    rw [hval, Int.floor_natCast]
  · have he : ¬ ((0 : ℤ) ≤ (k : ℤ) - (f : ℤ)) := by omega
    have ht : (-((k : ℤ) - (f : ℤ))).toNat = f - k := by omega
    have hval : (n : ℚ) / (10 : ℚ) ^ f * (10 : ℚ) ^ k
        = (n : ℚ) / ((10 ^ (f - k) : ℕ) : ℚ) := by
      have hp : (10 : ℚ) ^ f = (10 : ℚ) ^ (f - k) * (10 : ℚ) ^ k := by
        rw [← pow_add]
        congr 1
        omega
      have h10 : (10 : ℚ) ^ k ≠ 0 := by positivity
      have h10b : (10 : ℚ) ^ (f - k) ≠ 0 := by positivity
      push_cast
      rw [hp]
      field_simp
      ring
    simp only [pyIntOfFloat, if_neg he, ht, Bool.false_eq_true, if_false]
    rw [hval, Rat.floor_natCast_div_natCast, ← Int.natCast_div]

theorem parse_wf_case (ip : List Char) (dotfp : Option (List Char))
    (suf : Option Char) (tailLow : List Char) (k : ℕ)
    (hip : ∀ c ∈ ip, isDigitChar c = true)
    (hfp : ∀ c ∈ fracOf dotfp, isDigitChar c = true)
    (hne : ip ≠ [] ∨ fracOf dotfp ≠ [])
    (hsufmap : ((sufChars suf).map asciiLower).flatMap expandSuffixChar = tailLow)
    (htail : ∀ c cs, tailLow = c :: cs → (isDigitChar c = false ∧ c ≠ '.'))
    (hexp : parseExp tailLow = some (k : ℤ))
    (hk : expOfSuffix suf = k) :
    parse_best_diff (mkDiffStr ip dotfp suf)
      = some ⌊decValue ip dotfp * (10 : ℚ) ^ expOfSuffix suf⌋ := by
  subst hk
  have htr := diffTransform_mkDiffStr ip dotfp suf tailLow hip hfp hsufmap
  unfold parse_best_diff
  rw [htr]
  cases dotfp with
  | none =>
    have hneip : ip ≠ [] := by
      rcases hne with h | h
      · exact h
      · exact absurd rfl h
    rw [show dotChars none = ([] : List Char) from rfl, List.nil_append]
    rw [parseFloat_canonical_nodot ip tailLow ((expOfSuffix suf : ℕ) : ℤ) hip hneip
      htail hexp]
    show some (pyIntOfFloat ⟨false, digitsToNat ip, 0, ((expOfSuffix suf : ℕ) : ℤ)⟩) = _
    rw [pyIntOfFloat_floor]
    simp [decValue, fracOf]
  | some fp =>
    have hne2 : ¬(ip = [] ∧ fp = []) := by
      rcases hne with h | h
      · exact fun hc => h hc.1
      · exact fun hc => h hc.2
    show (parseFloat (ip ++ ('.' :: (fp ++ tailLow)))).map pyIntOfFloat = _
    rw [parseFloat_canonical_dot ip fp tailLow ((expOfSuffix suf : ℕ) : ℤ) hip hfp hne2
      htail hexp]
    show some (pyIntOfFloat
      ⟨false, digitsToNat (ip ++ fp), fp.length, ((expOfSuffix suf : ℕ) : ℤ)⟩) = _
    rw [pyIntOfFloat_floor]
    simp [decValue, fracOf]

/-- C4 (amended): for every well-formed difficulty string — digits, an
optional dot with fraction digits, and at most one case-insensitive
`K`/`M`/`G` suffix — the parsed integer magnitude is the number times
10^3 / 10^6 / 10^9 (10^0 without suffix) truncated toward zero to an
integer (the floor, values being nonnegative); and the new-record
decision of `check_and_update_best_diff` is a function of the parsed
magnitude and the stored record's value field alone. -/
theorem parse_wellformed_magnitude :
    (∀ (ip : List Char) (dotfp : Option (List Char)) (suf : Option Char),
      (∀ c ∈ ip, isDigitChar c = true) →
      (∀ c ∈ fracOf dotfp, isDigitChar c = true) →
      (ip ≠ [] ∨ fracOf dotfp ≠ []) →
      (suf = none ∨ suf = some 'K' ∨ suf = some 'M' ∨ suf = some 'G' ∨
        suf = some 'k' ∨ suf = some 'm' ∨ suf = some 'g') →
      parse_best_diff (mkDiffStr ip dotfp suf)
        = some ⌊decValue ip dotfp * (10 : ℚ) ^ expOfSuffix suf⌋) ∧
    (∀ (diff host : String) (ioOk : Bool) (t : ℕ) (st : BDState),
      (check_and_update_best_diff diff host ioOk t st).1.1 =
        if diff = "" ∨ diff = "-" then false
        else
          match parse_best_diff diff, (load_best_diff st).1 with
          | some v, some r => decide (v > r.value)
          | some _, none => true
          | none, _ => false) := by
  constructor
  · intro ip dotfp suf hip hfp hne hsuf
    rcases hsuf with rfl | rfl | rfl | rfl | rfl | rfl | rfl
    · exact parse_wf_case ip dotfp none [] 0 hip hfp hne rfl
        (fun c cs h => List.noConfusion h) rfl rfl
    · refine parse_wf_case ip dotfp (some 'K') ['e', '3'] 3 hip hfp hne (by decide)
        ?_ (by decide) (by decide)
      intro c cs h
      injection h with h1 _
      subst h1
      exact ⟨by decide, by decide⟩
    · refine parse_wf_case ip dotfp (some 'M') ['e', '6'] 6 hip hfp hne (by decide)
        ?_ (by decide) (by decide)
      intro c cs h
      injection h with h1 _
      subst h1
      exact ⟨by decide, by decide⟩
    · refine parse_wf_case ip dotfp (some 'G') ['e', '9'] 9 hip hfp hne (by decide)
        ?_ (by decide) (by decide)
      intro c cs h
      injection h with h1 _
      subst h1
      exact ⟨by decide, by decide⟩
    · refine parse_wf_case ip dotfp (some 'k') ['e', '3'] 3 hip hfp hne (by decide)
        ?_ (by decide) (by decide)
      intro c cs h
      injection h with h1 _
      subst h1
      exact ⟨by decide, by decide⟩
    · refine parse_wf_case ip dotfp (some 'm') ['e', '6'] 6 hip hfp hne (by decide)
        ?_ (by decide) (by decide)
      intro c cs h
      injection h with h1 _
      subst h1
      exact ⟨by decide, by decide⟩
    · refine parse_wf_case ip dotfp (some 'g') ['e', '9'] 9 hip hfp hne (by decide)
        ?_ (by decide) (by decide)
      intro c cs h
      injection h with h1 _
      subst h1
      exact ⟨by decide, by decide⟩
  · intro diff host ioOk t st
    unfold check_and_update_best_diff
    by_cases h : diff = "" ∨ diff = "-"
    · simp [h]
    · cases hp : parse_best_diff diff with
      | none => simp [h, hp]
      | some v =>
        cases hl : (load_best_diff st).1 with
        | none => simp [h, hp, hl]
        | some r =>
          cases hd : decide (v > r.value) <;> simp [h, hp, hl, hd]

/-- C4: counterexample to the claim as stated.  `"1.2345K"` is a
well-formed difficulty string; its number times 10^3 is the non-integer
2469/2 = 1234.5, while the parsed integer magnitude is the truncation
1234 — so the parsed magnitude does not equal the number times 10^3. -/
theorem parse_truncates_fractional_product :
    mkDiffStr ['1'] (some ['2', '3', '4', '5']) (some 'K') = "1.2345K" ∧
    parse_best_diff "1.2345K" = some 1234 ∧
    decValue ['1'] (some ['2', '3', '4', '5'])
        * (10 : ℚ) ^ expOfSuffix (some 'K') = 2469 / 2 ∧
    ((1234 : ℚ) ≠ 2469 / 2) := by
  refine ⟨by decide, by decide, ?_, by norm_num⟩
  show ((12345 : ℕ) : ℚ) / (10 : ℚ) ^ (4 : ℕ) * (10 : ℚ) ^ (3 : ℕ) = 2469 / 2
  norm_num

/-- C4 witness: the universal statement instantiated at `"1.5M"`, plus
the spec's other reference points and a concrete new-record decision. -/
theorem parse_wellformed_magnitude_witness :
    (∀ c ∈ ['1'], isDigitChar c = true) ∧
    parse_best_diff "1.5M" = some 1500000 ∧
    parse_best_diff "2G" = some 2000000000 ∧
    parse_best_diff "900K" = some 900000 ∧
    parse_best_diff "500" = some 500 ∧
    (check_and_update_best_diff "900K" "h" true 0 ⟨none, none⟩).1.1 = true := by
  refine ⟨by decide, ?_, by decide, by decide, by decide, ?_⟩
  · have h := parse_wellformed_magnitude.1 ['1'] (some ['5']) (some 'M')
      (by decide) (by decide) (by decide) (by decide)
    rw [show mkDiffStr ['1'] (some ['5']) (some 'M') = "1.5M" from rfl] at h
    rw [h]
    have hv : decValue ['1'] (some ['5']) * (10 : ℚ) ^ expOfSuffix (some 'M')
        = ((1500000 : ℤ) : ℚ) := by
      show ((15 : ℕ) : ℚ) / (10 : ℚ) ^ (1 : ℕ) * (10 : ℚ) ^ (6 : ℕ) = ((1500000 : ℤ) : ℚ)
      norm_num
    rw [hv, Int.floor_intCast]
  · rw [parse_wellformed_magnitude.2 "900K" "h" true 0 ⟨none, none⟩]
    decide

theorem foldl_specStep_none (ks : List String) : ks.foldl specStep none = none := by
  induction ks with
  | nil => rfl
  | cons k ks ih => simpa [specStep] using ih

theorem pathDescend_eq_foldl (v : JValue) (keys : List String) :
    pathDescend v keys = keys.foldl specStep (some v) := by
  induction keys generalizing v with
  | nil => cases v <;> rfl
  | cons k ks ih =>
    cases v with
    | obj kvs =>
      rw [List.foldl_cons]
      cases hl : alookup kvs k with
      | some w => simp [pathDescend, specStep, hl, ih]
      | none => simp [pathDescend, specStep, hl, foldl_specStep_none]
    | null => simp [pathDescend, specStep, foldl_specStep_none]
    | bool b => simp [pathDescend, specStep, foldl_specStep_none]
    | int n => simp [pathDescend, specStep, foldl_specStep_none]
    | float q => simp [pathDescend, specStep, foldl_specStep_none]
    | str s => simp [pathDescend, specStep, foldl_specStep_none]
    | arr xs => simp [pathDescend, specStep, foldl_specStep_none]

theorem firstAlt_eq_find (data : Obj) (keys : List String) :
    firstAlt data keys
      = (keys.find? (fun k => (alookup data k).isSome)).bind (alookup data) := by
  induction keys with
  | nil => rfl
  | cons k ks ih =>
    cases hl : alookup data k with
    | some v => simp [firstAlt, List.find?, hl]
    | none => simpa [firstAlt, List.find?, hl] using ih

/-- C5: candidate-key resolution obeys the two-mode rule.  `get_value`
equals the spec-side resolution: an empty list gives `None`; a list with
more than one entry whose first key maps to a nested container is a path
descent (failing to `None` when a step is missing or not a container,
as `resolvePathSpec` folds); otherwise the first present top-level
candidate wins.  The three reference examples are included. -/
theorem get_value_two_mode_resolution :
    (∀ (data : Obj) (keys : List String),
      get_value data keys = if keys = [] then none else resolveSpec data keys) ∧
    get_value [("stratum", JValue.obj [("poolMode", JValue.str "solo")])]
      ["stratum", "poolMode"] = some (JValue.str "solo") ∧
    get_value [("power", JValue.float (25 / 2))] ["voltage", "power"]
      = some (JValue.float (25 / 2)) ∧
    get_value ([] : Obj) ([] : List String) = none := by
  refine ⟨?_, rfl, rfl, rfl⟩
  intro data keys
  cases keys with
  | nil => rfl
  | cons k0 rest =>
    rw [if_neg (by simp)]
    have hg : get_value data (k0 :: rest)
        = if rest.length > 0 ∧ isObjValue (alookup data k0) = true then
            pathDescend (JValue.obj data) (k0 :: rest)
          else firstAlt data (k0 :: rest) := rfl
    have hs : resolveSpec data (k0 :: rest)
        = if (k0 :: rest).length > 1 ∧ isObjValue (alookup data k0) = true then
            resolvePathSpec data (k0 :: rest)
          else resolveAltSpec data (k0 :: rest) := rfl
    rw [hg, hs]
    by_cases h2 : isObjValue (alookup data k0) = true
    · by_cases h1 : rest.length > 0
      · rw [if_pos ⟨h1, h2⟩,
          if_pos ⟨by simp only [List.length_cons]; omega, h2⟩]
        exact pathDescend_eq_foldl _ _
      · rw [if_neg (fun hc => h1 hc.1),
          if_neg (fun hc => h1 (by
            have hx := hc.1
            simp only [List.length_cons] at hx
            omega))]
        exact firstAlt_eq_find _ _
    · rw [if_neg (fun hc => h2 hc.2), if_neg (fun hc => h2 hc.2)]
      exact firstAlt_eq_find _ _

/-- C6: counterexample to "every canonical field is typed as
documented".  A raw payload carrying the string `"banana"` under
`"power"` (documented type: float) is passed through untyped: the
normalized `power` field is that string, which is no float (and no
int). -/
theorem normalize_type_violation :
    alookup (unify_status [("power", JValue.str "banana")] "h") "power"
      = some (JValue.str "banana") ∧
    (∀ q : ℚ, JValue.str "banana" ≠ JValue.float q) ∧
    (∀ n : ℤ, JValue.str "banana" ≠ JValue.int n) :=
  ⟨rfl, fun _ hq => JValue.noConfusion hq, fun _ hn => JValue.noConfusion hn⟩

/-- C6 (amended): `unify_status` passes an error-marked payload through
unchanged, and on every other payload (the empty object included) it
returns a record listing exactly the canonical fields, in order — every
canonical field is present.  (Values taken from the raw payload keep
their raw type; only the defaults are guaranteed to have the documented
types, see `normalize_type_violation`.) -/
theorem normalize_passthrough_and_complete (data : Obj) (h : String) :
    ((alookup data "error").isSome = true → unify_status data h = data) ∧
    (alookup data "error" = none →
      (unify_status data h).map Prod.fst = canonicalFieldNames) := by
  constructor
  · intro herr
    unfold unify_status
    rw [if_pos herr]
  · intro herr
    unfold unify_status
    rw [if_neg (by simp [herr]), List.map_map]
    rfl

/-- C6 witness: an error payload passes through; the empty payload
yields exactly the canonical field names. -/
theorem normalize_passthrough_and_complete_witness :
    unify_status [("error", JValue.str "timeout")] "h"
      = [("error", JValue.str "timeout")] ∧
    (unify_status ([] : Obj) "h").map Prod.fst = canonicalFieldNames := by
  constructor
  · exact (normalize_passthrough_and_complete [("error", JValue.str "timeout")] "h").1 rfl
  · exact (normalize_passthrough_and_complete ([] : Obj) "h").2 rfl

/-- C7: counterexample.  `get_value` resolves `ssid` to the empty string
present in the payload, yet the normalized record carries the default
`"-"` instead of the resolved value: Python's `x or default` replaces
every falsy resolved value. -/
theorem normalize_falsy_resolved_replaced :
    get_value [("ssid", JValue.str "")] ["ssid"] = some (JValue.str "") ∧
    alookup (unify_status [("ssid", JValue.str "")] "h") "ssid"
      = some (JValue.str "-") ∧
    JValue.str "-" ≠ JValue.str "" := by
  refine ⟨rfl, rfl, fun hEq => ?_⟩
  injection hEq with h1
  exact absurd h1 (by decide)

theorem alookup_unifyRow_map (data : Obj) (l : List (String × List String × JValue))
    (nm : String) (ks : List String) (d : JValue)
    (hnd : (l.map Prod.fst).Nodup) (hmem : (nm, ks, d) ∈ l) :
    alookup (l.map (unifyRow data)) nm = some (pyOr (get_value data ks) d) := by
  induction l with
  | nil => cases hmem
  | cons r rs ih =>
    rcases List.mem_cons.mp hmem with hEq | hm
    · subst hEq
      simp [alookup, unifyRow]
    · have hnm : nm ∈ rs.map Prod.fst := List.mem_map.mpr ⟨(nm, ks, d), hm, rfl⟩
      have hne : nm ≠ r.1 := by
        intro hEq
        rw [List.map_cons] at hnd
        exact (List.nodup_cons.mp hnd).1 (hEq ▸ hnm)
      rw [List.map_cons]
      show alookup (unifyRow data r :: rs.map (unifyRow data)) nm = _
      have : alookup (unifyRow data r :: rs.map (unifyRow data)) nm
          = alookup (rs.map (unifyRow data)) nm := by
        simp [alookup, unifyRow, hne]
      rw [this]
      exact ih (by rw [List.map_cons] at hnd; exact (List.nodup_cons.mp hnd).2) hm

theorem fieldTable_names_nodup (h : String) :
    ((fieldTable h).map Prod.fst).Nodup := by
  have hEq : (fieldTable h).map Prod.fst = canonicalFieldNames := rfl
  rw [hEq]
  decide

/-- C7 (amended): for every canonical field row (name, candidate keys,
default) and every raw payload without an error marker, the normalized
value is `pyOr (get_value raw keys) default` — the resolved value itself
when it is truthy, and the field's default both when no candidate
resolves and when the resolved value is falsy (`0`, `0.0`, `""`,
`false`, an empty sequence).  The claim's "whenever a candidate
resolves, the resolved value itself is returned" fails exactly on the
falsy values, see `normalize_falsy_resolved_replaced`. -/
theorem normalize_field_uses_pyOr (data : Obj) (h : String)
    (herr : alookup data "error" = none) :
    ∀ nm ks d, (nm, ks, d) ∈ fieldTable h →
      alookup (unify_status data h) nm = some (pyOr (get_value data ks) d) := by
  intro nm ks d hmem
  unfold unify_status
  rw [if_neg (by simp [herr])]
  exact alookup_unifyRow_map data (fieldTable h) nm ks d (fieldTable_names_nodup h) hmem

/-- C7 witness: a truthy resolved value (`"ax1"` for `hostname`) is
returned as-is. -/
theorem normalize_field_uses_pyOr_witness :
    alookup (unify_status [("hostname", JValue.str "ax1")] "fb") "hostname"
      = some (JValue.str "ax1") := by
  have h := normalize_field_uses_pyOr [("hostname", JValue.str "ax1")] "fb" rfl
    "hostname" ["hostname"] (JValue.str "fb") (List.Mem.head _)
  exact h.trans rfl

/-! Helper lemmas about association-list state, used for the cache
claims. -/

theorem alookup_ainsert_self {α : Type} (l : List (String × α)) (k : String) (v : α) :
    alookup (ainsert l k v) k = some v := by
  induction l with
  | nil => simp [ainsert, alookup]
  | cons d ds ih =>
    rcases d with ⟨dk, dw⟩
    by_cases h : k = dk
    · simp [ainsert, alookup, h]
    · simp [ainsert, alookup, h, ih]

theorem alookup_ainsert_ne {α : Type} (l : List (String × α)) (k k2 : String) (v : α)
    (h : k ≠ k2) : alookup (ainsert l k2 v) k = alookup l k := by
  induction l with
  | nil => simp [ainsert, alookup, h]
  | cons d ds ih =>
    rcases d with ⟨dk, dw⟩
    by_cases h2 : k2 = dk
    · subst h2
      simp [ainsert, alookup, h]
    · by_cases h3 : k = dk
      · simp [ainsert, alookup, h2, h3]
      · simp [ainsert, alookup, h2, h3, ih]

theorem alist_key_unique {β : Type} {l : List (String × β)}
    (hnd : (l.map Prod.fst).Nodup) {a : String} {b c : β}
    (h1 : (a, b) ∈ l) (h2 : (a, c) ∈ l) : b = c := by
  induction l with
  | nil => cases h1
  | cons d ds ih =>
    rw [List.map_cons] at hnd
    have hd := List.nodup_cons.mp hnd
    rcases List.mem_cons.mp h1 with hEq1 | hm1 <;>
      rcases List.mem_cons.mp h2 with hEq2 | hm2
    · have : (a, b) = (a, c) := hEq1.trans hEq2.symm
      injection this
    · exfalso
      apply hd.1
      rw [← hEq1]
      exact List.mem_map.mpr ⟨(a, c), hm2, rfl⟩
    · exfalso
      apply hd.1
      rw [← hEq2]
      exact List.mem_map.mpr ⟨(a, b), hm1, rfl⟩
    · exact ih hd.2 hm1 hm2

theorem filterMap_keys_sublist {α β γ : Type} (f : α × β → Option (α × γ))
    (l : List (α × β)) (hf : ∀ x y, f x = some y → y.1 = x.1) :
    ((l.filterMap f).map Prod.fst).Sublist (l.map Prod.fst) := by
  induction l with
  | nil => exact List.Sublist.refl _
  | cons d ds ih =>
    rw [List.filterMap_cons, List.map_cons]
    cases hfd : f d with
    | none => exact ih.cons _
    | some b =>
      rw [List.map_cons, hf d b hfd]
      exact ih.cons₂ _

theorem staleHosts_key_preserving (cache : Cache) (now : Int) :
    ∀ (x : String × Option String) (y : String × String),
      (match x.2 with
        | some ip =>
          if ip ≠ "" ∧ ¬ isFreshEntry now (alookup cache x.1) = true then
            some (x.1, ip)
          else none
        | none => none) = some y → y.1 = x.1 := by
  rintro ⟨nm, ipo⟩ y h
  cases ipo with
  | none => exact Option.noConfusion h
  | some ip =>
    dsimp only at h ⊢
    by_cases hc : ip ≠ "" ∧ ¬ isFreshEntry now (alookup cache nm) = true
    · rw [if_pos hc] at h
      injection h with h1
      rw [← h1]
    · rw [if_neg hc] at h
      exact Option.noConfusion h

theorem staleHosts_keys_nodup (devices : List (String × Option String))
    (cache : Cache) (now : Int) (hnd : (devices.map Prod.fst).Nodup) :
    ((staleHosts devices cache now).map Prod.fst).Nodup := by
  unfold staleHosts
  exact List.Nodup.sublist
    (filterMap_keys_sublist _ devices (staleHosts_key_preserving cache now)) hnd

theorem mem_staleHosts (devices : List (String × Option String)) (cache : Cache)
    (now : Int) (name ip : String) (hmem : (name, some ip) ∈ devices)
    (hip : ip ≠ "") (hst : ¬ isFreshEntry now (alookup cache name) = true) :
    (name, ip) ∈ staleHosts devices cache now := by
  unfold staleHosts
  apply List.mem_filterMap.mpr
  refine ⟨(name, some ip), hmem, ?_⟩
  show (if ip ≠ "" ∧ ¬ isFreshEntry now (alookup cache name) = true then
    some (name, ip) else none) = some (name, ip)
  rw [if_pos ⟨hip, hst⟩]

theorem staleHosts_mem_elim (devices : List (String × Option String))
    (cache : Cache) (now : Int) (nm ip2 : String)
    (h : (nm, ip2) ∈ staleHosts devices cache now) :
    (nm, some ip2) ∈ devices ∧ ip2 ≠ "" ∧
      ¬ isFreshEntry now (alookup cache nm) = true := by
  unfold staleHosts at h
  obtain ⟨⟨a, b⟩, hmem, hfa⟩ := List.mem_filterMap.mp h
  cases b with
  | none => exact Option.noConfusion hfa
  | some ip =>
    dsimp only at hfa
    by_cases hc : ip ≠ "" ∧ ¬ isFreshEntry now (alookup cache a) = true
    · rw [if_pos hc] at hfa
      injection hfa with h1
      obtain ⟨rfl, rfl⟩ := Prod.mk.injEq _ _ _ _ |>.mp h1
      exact ⟨hmem, hc.1, hc.2⟩
    · rw [if_neg hc] at hfa
      exact Option.noConfusion hfa

theorem lookup_refresh_notmem (o : String → FetchOutcome) (t : Int) (name : String) :
    ∀ (stale : List (String × String)) (cache : Cache),
      name ∉ stale.map Prod.fst →
      alookup (refreshCache o t stale cache) name = alookup cache name := by
  intro stale
  induction stale with
  | nil => intro cache _; rfl
  | cons s ss ih =>
    intro cache h
    rw [List.map_cons] at h
    have h1 : name ≠ s.1 := fun hEq => h (by rw [hEq]; exact List.mem_cons_self _ _)
    have h2 : name ∉ ss.map Prod.fst := fun hm => h (List.mem_cons_of_mem _ hm)
    show alookup (refreshCache o t ss
      (ainsert cache s.1 ⟨unify_status (fetch_status (o s.2)) s.1, t⟩)) name = _
    rw [ih _ h2, alookup_ainsert_ne _ _ _ _ h1]

theorem lookup_refresh_mem (o : String → FetchOutcome) (t : Int) (name ip : String) :
    ∀ (stale : List (String × String)) (cache : Cache),
      (stale.map Prod.fst).Nodup → (name, ip) ∈ stale →
      alookup (refreshCache o t stale cache) name
        = some ⟨unify_status (fetch_status (o ip)) name, t⟩ := by
  intro stale
  induction stale with
  | nil => intro cache _ hm; cases hm
  | cons s ss ih =>
    intro cache hnd hmem
    rw [List.map_cons] at hnd
    have hd := List.nodup_cons.mp hnd
    rcases List.mem_cons.mp hmem with hEq | hm
    · subst hEq
      show alookup (refreshCache o t ss
        (ainsert cache name ⟨unify_status (fetch_status (o ip)) name, t⟩)) name = _
      rw [lookup_refresh_notmem o t name ss _ hd.1, alookup_ainsert_self]
    · have hne : name ≠ s.1 := by
        intro hEq
        exact hd.1 (hEq ▸ List.mem_map.mpr ⟨(name, ip), hm, rfl⟩)
      show alookup (refreshCache o t ss
        (ainsert cache s.1 ⟨unify_status (fetch_status (o s.2)) s.1, t⟩)) name = _
      exact ih _ hd.2 hm

theorem alookup_resultMap_notmem (c2 : Cache) (name : String) :
    ∀ (devices : List (String × Option String)),
      name ∉ devices.map Prod.fst →
      alookup (devices.filterMap fun d =>
        (alookup c2 d.1).map fun e => (d.1, e.data)) name = none := by
  intro devices
  induction devices with
  | nil => intro _; rfl
  | cons d ds ih =>
    intro h
    rw [List.map_cons] at h
    have h1 : name ≠ d.1 := fun hEq => h (by rw [hEq]; exact List.mem_cons_self _ _)
    have h2 : name ∉ ds.map Prod.fst := fun hm => h (List.mem_cons_of_mem _ hm)
    rw [List.filterMap_cons]
    cases hl : alookup c2 d.1 with
    | none =>
      simp only [Option.map_none']
      exact ih h2
    | some e =>
      simp only [Option.map_some']
      simp only [alookup, if_neg h1]
      exact ih h2

theorem alookup_resultMap (c2 : Cache) (name : String) :
    ∀ (devices : List (String × Option String)),
      (devices.map Prod.fst).Nodup → (∃ x, (name, x) ∈ devices) →
      alookup (devices.filterMap fun d =>
        (alookup c2 d.1).map fun e => (d.1, e.data)) name
        = (alookup c2 name).map CacheEntry.data := by
  intro devices
  induction devices with
  | nil =>
    rintro _ ⟨x, hx⟩
    cases hx
  | cons d ds ih =>
    rintro hnd ⟨x, hx⟩
    rw [List.map_cons] at hnd
    have hd := List.nodup_cons.mp hnd
    rw [List.filterMap_cons]
    by_cases hname : name = d.1
    · cases hl : alookup c2 d.1 with
      | some e =>
        simp only [Option.map_some']
        simp only [alookup, if_pos hname]
        rw [hname, hl]
        rfl
      | none =>
        simp only [Option.map_none']
        rw [hname, hl]
        simp only [Option.map_none']
        exact alookup_resultMap_notmem c2 d.1 ds hd.1
    · have hm : (name, x) ∈ ds := by
        rcases List.mem_cons.mp hx with hEq | hm2
        · exact absurd (congrArg Prod.fst hEq) hname
        · exact hm2
      cases hl : alookup c2 d.1 with
      | some e =>
        simp only [Option.map_some']
        simp only [alookup, if_neg hname]
        exact ih hd.2 ⟨x, hm⟩
      | none =>
        simp only [Option.map_none']
        exact ih hd.2 ⟨x, hm⟩

/-- C8: TTL behaviour of `get_all_device_statuses` for a configured
device (truthy ip).  A cache entry younger than 5 seconds means the
device is not in the stale (fetch) list, its entry survives untouched
and its cached data is returned; an absent or stale entry means the
device appears exactly once in the fetch list and its entry is
overwritten with the newly unified status at the write-time clock `tF`
before the combined map is returned. -/
theorem cache_ttl_behavior (devices : List (String × Option String))
    (oracle : String → FetchOutcome) (now tF : Int) (cache : Cache)
    (name ip : String)
    (hnd : (devices.map Prod.fst).Nodup)
    (hmem : (name, some ip) ∈ devices) (hip : ip ≠ "") :
    (∀ e, alookup cache name = some e → now - e.timestamp < 5 →
      (name ∉ (staleHosts devices cache now).map Prod.fst ∧
        alookup (get_all_device_statuses devices oracle now tF cache).1 name = some e ∧
        alookup (get_all_device_statuses devices oracle now tF cache).2 name
          = some e.data)) ∧
    (¬ isFreshEntry now (alookup cache name) = true →
      (((staleHosts devices cache now).map Prod.fst).count name = 1 ∧
        alookup (get_all_device_statuses devices oracle now tF cache).1 name
          = some ⟨unify_status (fetch_status (oracle ip)) name, tF⟩ ∧
        alookup (get_all_device_statuses devices oracle now tF cache).2 name
          = some (unify_status (fetch_status (oracle ip)) name))) := by
  constructor
  · intro e he hfresh
    have hf : isFreshEntry now (alookup cache name) = true := by
      rw [he]
      exact decide_eq_true hfresh
    have hnot : name ∉ (staleHosts devices cache now).map Prod.fst := by
      intro hin
      obtain ⟨⟨nm2, ip2⟩, hmem2, hfst⟩ := List.mem_map.mp hin
      dsimp only at hfst
      subst hfst
      obtain ⟨_, _, hstale2⟩ := staleHosts_mem_elim devices cache now nm2 ip2 hmem2
      exact hstale2 hf
    refine ⟨hnot, ?_, ?_⟩
    · show alookup (refreshCache oracle tF (staleHosts devices cache now) cache) name
        = some e
      rw [lookup_refresh_notmem oracle tF name _ cache hnot, he]
    · show alookup (devices.filterMap fun d =>
        (alookup (refreshCache oracle tF (staleHosts devices cache now) cache) d.1).map
          fun e => (d.1, e.data)) name = some e.data
      rw [alookup_resultMap _ name devices hnd ⟨some ip, hmem⟩,
        lookup_refresh_notmem oracle tF name _ cache hnot, he]
      rfl
  · intro hstale
    have hin : (name, ip) ∈ staleHosts devices cache now :=
      mem_staleHosts devices cache now name ip hmem hip hstale
    have hndstale := staleHosts_keys_nodup devices cache now hnd
    refine ⟨?_, ?_, ?_⟩
    · exact List.count_eq_one_of_mem hndstale (List.mem_map.mpr ⟨(name, ip), hin, rfl⟩)
    · show alookup (refreshCache oracle tF (staleHosts devices cache now) cache) name = _
      exact lookup_refresh_mem oracle tF name ip _ cache hndstale hin
    · show alookup (devices.filterMap fun d =>
        (alookup (refreshCache oracle tF (staleHosts devices cache now) cache) d.1).map
          fun e => (d.1, e.data)) name = _
      rw [alookup_resultMap _ name devices hnd ⟨some ip, hmem⟩,
        lookup_refresh_mem oracle tF name ip _ cache hndstale hin]
      rfl

/-- C8 witness: one device `"ax"` with a cache entry written at time 0.
At `now = 3` the entry is fresh — no fetch, cached data returned; at
`now = 10` it is stale — exactly one fetch, entry overwritten with the
unified fetch result at the write time 11. -/
theorem cache_ttl_behavior_witness :
    ("ax" ∉ (staleHosts [("ax", some "10.0.0.1")]
        [("ax", ⟨[("power", JValue.int 5)], 0⟩)] 3).map Prod.fst ∧
      alookup (get_all_device_statuses [("ax", some "10.0.0.1")]
        (fun _ => FetchOutcome.timeout) 3 4
        [("ax", ⟨[("power", JValue.int 5)], 0⟩)]).1 "ax"
        = some ⟨[("power", JValue.int 5)], 0⟩ ∧
      alookup (get_all_device_statuses [("ax", some "10.0.0.1")]
        (fun _ => FetchOutcome.timeout) 3 4
        [("ax", ⟨[("power", JValue.int 5)], 0⟩)]).2 "ax"
        = some [("power", JValue.int 5)]) ∧
    (((staleHosts [("ax", some "10.0.0.1")]
        [("ax", ⟨[("power", JValue.int 5)], 0⟩)] 10).map Prod.fst).count "ax" = 1 ∧
      alookup (get_all_device_statuses [("ax", some "10.0.0.1")]
        (fun _ => FetchOutcome.timeout) 10 11
        [("ax", ⟨[("power", JValue.int 5)], 0⟩)]).1 "ax"
        = some ⟨[("error", JValue.str "timeout")], 11⟩ ∧
      alookup (get_all_device_statuses [("ax", some "10.0.0.1")]
        (fun _ => FetchOutcome.timeout) 10 11
        [("ax", ⟨[("power", JValue.int 5)], 0⟩)]).2 "ax"
        = some [("error", JValue.str "timeout")]) := by
  constructor
  · exact (cache_ttl_behavior [("ax", some "10.0.0.1")] (fun _ => FetchOutcome.timeout)
      3 4 [("ax", ⟨[("power", JValue.int 5)], 0⟩)] "ax" "10.0.0.1"
      (by decide) (by decide) (by decide)).1
      ⟨[("power", JValue.int 5)], 0⟩ rfl (by decide)
  · exact (cache_ttl_behavior [("ax", some "10.0.0.1")] (fun _ => FetchOutcome.timeout)
      10 11 [("ax", ⟨[("power", JValue.int 5)], 0⟩)] "ax" "10.0.0.1"
      (by decide) (by decide) (by decide)).2 (by decide)

/-- C9: every fetch failure is returned as a typed error value —
`{"error": "timeout"}` on timeout, `{"error": message}` on client or
unexpected errors — never raised (the model is total by construction);
and one device's fetch outcome cannot affect another device's entry in
the returned map: the result for `name` depends only on the oracle's
value at `name`'s ip, and a configured device always has an entry in
the returned map whatever the outcomes. -/
theorem fetch_errors_typed_and_isolated :
    fetch_status FetchOutcome.timeout = [("error", JValue.str "timeout")] ∧
    (∀ m, fetch_status (FetchOutcome.clientError m) = [("error", JValue.str m)]) ∧
    (∀ m, fetch_status (FetchOutcome.unexpected m) = [("error", JValue.str m)]) ∧
    (∀ (devices : List (String × Option String)) (o1 o2 : String → FetchOutcome)
      (now tF : Int) (cache : Cache) (name ip : String),
      (devices.map Prod.fst).Nodup → (name, some ip) ∈ devices → ip ≠ "" →
      o1 ip = o2 ip →
      alookup (get_all_device_statuses devices o1 now tF cache).2 name
        = alookup (get_all_device_statuses devices o2 now tF cache).2 name) ∧
    (∀ (devices : List (String × Option String)) (o : String → FetchOutcome)
      (now tF : Int) (cache : Cache) (name ip : String),
      (devices.map Prod.fst).Nodup → (name, some ip) ∈ devices → ip ≠ "" →
      (alookup (get_all_device_statuses devices o now tF cache).2 name).isSome
        = true) := by
  refine ⟨rfl, fun _ => rfl, fun _ => rfl, ?_, ?_⟩
  · intro devices o1 o2 now tF cache name ip hnd hmem hip horacle
    show alookup (devices.filterMap fun d =>
        (alookup (refreshCache o1 tF (staleHosts devices cache now) cache) d.1).map
          fun e => (d.1, e.data)) name
      = alookup (devices.filterMap fun d =>
        (alookup (refreshCache o2 tF (staleHosts devices cache now) cache) d.1).map
          fun e => (d.1, e.data)) name
    rw [alookup_resultMap _ name devices hnd ⟨some ip, hmem⟩,
      alookup_resultMap _ name devices hnd ⟨some ip, hmem⟩]
    by_cases hin : name ∈ (staleHosts devices cache now).map Prod.fst
    · obtain ⟨⟨nm2, ip2⟩, hmem2, hfst⟩ := List.mem_map.mp hin
      dsimp only at hfst
      subst hfst
      obtain ⟨hdev2, _, _⟩ := staleHosts_mem_elim devices cache now nm2 ip2 hmem2
      have hipEq : some ip2 = some ip := alist_key_unique hnd hdev2 hmem
      injection hipEq with hipEq
      subst hipEq
      have hndstale := staleHosts_keys_nodup devices cache now hnd
      rw [lookup_refresh_mem o1 tF nm2 ip2 _ cache hndstale hmem2,
        lookup_refresh_mem o2 tF nm2 ip2 _ cache hndstale hmem2, horacle]
    · rw [lookup_refresh_notmem o1 tF name _ cache hin,
        lookup_refresh_notmem o2 tF name _ cache hin]
  · intro devices o now tF cache name ip hnd hmem hip
    show (alookup (devices.filterMap fun d =>
        (alookup (refreshCache o tF (staleHosts devices cache now) cache) d.1).map
          fun e => (d.1, e.data)) name).isSome = true
    rw [alookup_resultMap _ name devices hnd ⟨some ip, hmem⟩]
    by_cases hf : isFreshEntry now (alookup cache name) = true
    · have hnot : name ∉ (staleHosts devices cache now).map Prod.fst := by
        intro hin
        obtain ⟨⟨nm2, ip2⟩, hmem2, hfst⟩ := List.mem_map.mp hin
        dsimp only at hfst
        subst hfst
        obtain ⟨_, _, hstale2⟩ := staleHosts_mem_elim devices cache now nm2 ip2 hmem2
        exact hstale2 hf
      rw [lookup_refresh_notmem o tF name _ cache hnot]
      cases he : alookup cache name with
      | none =>
        rw [he] at hf
        exact Bool.noConfusion hf
      | some e => rfl
    · have hin := mem_staleHosts devices cache now name ip hmem hip hf
      rw [lookup_refresh_mem o tF name ip _ cache
        (staleHosts_keys_nodup devices cache now hnd) hin]
      rfl

/-- C9 witness: concrete error payloads, and two oracles that agree on
device `"ax"`'s ip but differ elsewhere produce the same entry for
`"ax"`; the entry is present although the fetch failed. -/
theorem fetch_errors_typed_and_isolated_witness :
    fetch_status (FetchOutcome.clientError "boom") = [("error", JValue.str "boom")] ∧
    alookup (get_all_device_statuses [("ax", some "10.0.0.1")]
        (fun _ => FetchOutcome.timeout) 10 11 []).2 "ax"
      = alookup (get_all_device_statuses [("ax", some "10.0.0.1")]
        (fun s => if s = "10.0.0.1" then FetchOutcome.timeout
          else FetchOutcome.clientError "x") 10 11 []).2 "ax" ∧
    (alookup (get_all_device_statuses [("ax", some "10.0.0.1")]
        (fun _ => FetchOutcome.timeout) 10 11 []).2 "ax").isSome = true := by
  refine ⟨fetch_errors_typed_and_isolated.2.1 "boom", ?_, ?_⟩
  · exact fetch_errors_typed_and_isolated.2.2.2.1 [("ax", some "10.0.0.1")]
      (fun _ => FetchOutcome.timeout)
      (fun s => if s = "10.0.0.1" then FetchOutcome.timeout
        else FetchOutcome.clientError "x") 10 11 [] "ax" "10.0.0.1"
      (by decide) (by decide) (by decide) rfl
  · exact fetch_errors_typed_and_isolated.2.2.2.2 [("ax", some "10.0.0.1")]
      (fun _ => FetchOutcome.timeout) 10 11 [] "ax" "10.0.0.1"
      (by decide) (by decide) (by decide)
